import Mathlib

/-!
Shallow embedding of the SerLCD0 non-blocking LCD driver
(src/SerLCD0.h, src/SerLCD0.cpp) and proofs about its command queue,
dispatch state machine, protocol encoder and error handling.

Machine integers are modelled as Nat with explicit reductions at the
points where the source relies on fixed-width behaviour: the uint8
error counter wraps modulo 256, queue indices are reduced modulo the
queue size 32 exactly where the source applies the modulus, and the
unsigned long millisecond clock is compared via subtraction modulo
2 to the 32.  The I2C bus is modelled by the transactions handed to the
transport: each transaction is the list of bytes written between
beginTransmission and endTransmission, paired with the Bool result of
endTransmission, which the caller of update supplies as an oracle.
All millis() reads within a single call return the same value, passed
in as the now argument.
-/

namespace SerLCD0

/-- Command types, mirroring enum LCDCommand::Type in SerLCD0.h. -/
inductive CmdType where
  | NONE
  | WRITE_CHAR
  | SPECIAL_CMD
  | SETTING_CMD
  | RGB_CMD
deriving DecidableEq

/-- struct LCDCommand (SerLCD0.h): the uint8_t data[3] array is modelled
by the three byte fields data0, data1, data2. -/
structure LCDCommand where
  type : CmdType
  data0 : Nat
  data1 : Nat
  data2 : Nat
  dataLen : Nat
deriving DecidableEq

/-- enum class SerLCD0::State (SerLCD0.h). -/
inductive State where
  | READY
  | PROCESSING
  | AWAITING_RESPONSE
  | ERROR
deriving DecidableEq

/-- static const uint8_t QUEUE_SIZE = 32. -/
def QUEUE_SIZE : Nat := 32

/-- static const uint8_t SPECIAL_COMMAND = 254. -/
def SPECIAL_COMMAND : Nat := 254

/-- static const uint8_t SETTING_COMMAND = 0x7C. -/
def SETTING_COMMAND : Nat := 124

/-- static const uint8_t CLEAR_COMMAND = 0x01. -/
def CLEAR_COMMAND : Nat := 1

/-- static const uint8_t RGB_COMMAND = 0x2B. -/
def RGB_COMMAND : Nat := 43

/-- The state of one SerLCD0 driver object: the command queue storage,
the two queue indices, the dispatch state, the timing fields and the
error bookkeeping.  The static debug flag only affects Serial logging
and is omitted; the static error threshold is a field here.  The unused
config fields initTime and clearTime (set but never read by the
dispatch logic) are omitted. -/
structure Driver where
  cmdQueue : Nat → LCDCommand
  queueHead : Nat
  queueTail : Nat
  state : State
  lastActionTime : Nat
  errorCount : Nat
  needsFullRefresh : Bool
  cmdTime : Nat
  errorResetTime : Nat
  errorThreshold : Nat

/-- Unsigned 32-bit subtraction: currentTime - lastActionTime on the
unsigned long millisecond clock (both operands below 2 to the 32). -/
def sub32 (a b : Nat) : Nat := (a + 4294967296 - b) % 4294967296

/-- The constructor SerLCD0::SerLCD0 together with the default values
of the timing fields and the static error threshold (parameterised,
source default 1).  The constructor leaves _lastActionTime
uninitialized; it is never read before being written on any reachable
path, so it is modelled as 0. -/
def mkDriver (threshold : Nat) : Driver where
  cmdQueue := fun _ => ⟨CmdType.NONE, 0, 0, 0, 0⟩
  queueHead := 0
  queueTail := 0
  state := State.READY
  lastActionTime := 0
  errorCount := 0
  needsFullRefresh := true
  cmdTime := 5
  errorResetTime := 100
  errorThreshold := threshold

/-- SerLCD0::handleError (SerLCD0.cpp lines 185-207): increment the
uint8 error counter, escalate (enter ERROR, mark refresh, reset the
queue indices) when the counter strictly exceeds the threshold, and
timestamp the event. -/
def handleError (s : Driver) (now : Nat) : Driver :=
  if (s.errorCount + 1) % 256 > s.errorThreshold then
    { s with errorCount := (s.errorCount + 1) % 256, state := State.ERROR,
             needsFullRefresh := true, queueHead := 0, queueTail := 0,
             lastActionTime := now }
  else
    { s with errorCount := (s.errorCount + 1) % 256, lastActionTime := now }

/-- SerLCD0::queueCommand (SerLCD0.cpp lines 92-107): fail (routing to
handleError) when advancing the tail would meet the head, otherwise
store the command at the tail slot and advance the tail modulo 32. -/
def queueCommand (s : Driver) (cmd : LCDCommand) (now : Nat) : Driver × Bool :=
  if (s.queueTail + 1) % 32 = s.queueHead then
    (handleError s now, false)
  else
    ({ s with cmdQueue := fun i => if i = s.queueTail then cmd else s.cmdQueue i,
              queueTail := (s.queueTail + 1) % 32 }, true)

/-- The byte sequence SerLCD0::sendCommand writes inside one bus
transaction (SerLCD0.cpp lines 132-174); none for the default branch,
which aborts without calling endTransmission. -/
def sendBytes (cmd : LCDCommand) : Option (List Nat) :=
  match cmd.type with
  | CmdType.WRITE_CHAR =>
      if cmd.data0 = SPECIAL_COMMAND ∨ cmd.data0 = SETTING_COMMAND then
        some [cmd.data0, cmd.data0]
      else
        some [cmd.data0]
  | CmdType.SPECIAL_CMD => some [SPECIAL_COMMAND, cmd.data0]
  | CmdType.SETTING_CMD => some [SETTING_COMMAND, cmd.data0]
  | CmdType.RGB_CMD => some [SETTING_COMMAND, RGB_COMMAND, cmd.data0, cmd.data1, cmd.data2]
  | CmdType.NONE => none

/-- SerLCD0::processNextCommand (SerLCD0.cpp lines 110-129).  The
result is the new driver state, the bool return value, and the list of
bus transactions performed (bytes written, endTransmission result).
busOK is the endTransmission outcome supplied by the transport. -/
def processNextCommand (s : Driver) (now : Nat) (busOK : Bool) :
    Driver × Bool × List (List Nat × Bool) :=
  if s.state ≠ State.READY ∨ s.queueHead = s.queueTail then
    (s, false, [])
  else
    match sendBytes (s.cmdQueue s.queueHead) with
    | some bs =>
        if busOK then
          ({ s with queueHead := (s.queueHead + 1) % 32, state := State.PROCESSING,
                    lastActionTime := now }, true, [(bs, true)])
        else
          (handleError s now, false, [(bs, false)])
    | none => (handleError s now, false, [])

/-- The command built and queued by SerLCD0::clear. -/
def clearCmd : LCDCommand := ⟨CmdType.SPECIAL_CMD, CLEAR_COMMAND, 0, 0, 1⟩

/-- SerLCD0::clear (SerLCD0.cpp lines 227-233). -/
def clear (s : Driver) (now : Nat) : Driver := (queueCommand s clearCmd now).1

/-- The command built and queued by SerLCD0::setBacklight(r, g, b). -/
def rgbCmd (r g b : Nat) : LCDCommand := ⟨CmdType.RGB_CMD, r, g, b, 3⟩

/-- SerLCD0::setBacklight (SerLCD0.cpp lines 260-283). -/
def setBacklight (s : Driver) (r g b now : Nat) : Driver :=
  (queueCommand s (rgbCmd r g b) now).1

/-- The command built and queued by SerLCD0::write(b). -/
def writeChar (b : Nat) : LCDCommand := ⟨CmdType.WRITE_CHAR, b, 0, 0, 1⟩

/-- SerLCD0::write (SerLCD0.cpp lines 216-224): the Print adapter,
returning 1 when queued and 0 otherwise. -/
def write (s : Driver) (b now : Nat) : Driver × Nat :=
  let r := queueCommand s (writeChar b) now
  (r.1, if r.2 then 1 else 0)

/-- SerLCD0::reinitialize (SerLCD0.cpp lines 32-42): reset the queue
indices, enter PROCESSING, timestamp, clear the error counter, mark
for refresh, then queue the clear command and the white backlight
command. -/
def reinit (s : Driver) (now : Nat) : Driver :=
  let s1 : Driver :=
    { s with queueHead := 0, queueTail := 0, state := State.PROCESSING,
             lastActionTime := now, errorCount := 0, needsFullRefresh := true }
  setBacklight (clear s1 now) 255 255 255 now

/-- SerLCD0::update (SerLCD0.cpp lines 45-75): one tick of the state
machine.  Returns the new driver state, the bool return value of
update, and the bus transactions of this tick. -/
def update (s : Driver) (now : Nat) (busOK : Bool) :
    Driver × Bool × List (List Nat × Bool) :=
  match s.state with
  | State.PROCESSING =>
      if sub32 now s.lastActionTime ≥ s.cmdTime then
        ({ s with state := State.READY }, true, [])
      else
        (s, false, [])
  | State.ERROR =>
      if sub32 now s.lastActionTime ≥ s.errorResetTime then
        (reinit { s with state := State.READY, errorCount := 0 } now, false, [])
      else
        (s, false, [])
  | State.READY =>
      if s.queueHead ≠ s.queueTail then processNextCommand s now busOK
      else (s, true, [])
  | State.AWAITING_RESPONSE => (s, false, [])

/-- Occupancy count of a circular queue with indices h and t,
as computed by SerLCD0::getQueueCount. -/
def qc (h t : Nat) : Nat := if t ≥ h then t - h else 32 - (h - t)

/-- SerLCD0::getQueueCount (SerLCD0.cpp lines 78-83). -/
def getQueueCount (s : Driver) : Nat := qc s.queueHead s.queueTail

/-- The live commands of a circular queue, head first. -/
def qlist (Q : Nat → LCDCommand) (h t : Nat) : List LCDCommand :=
  (List.range (qc h t)).map fun i => Q ((h + i) % 32)

/-- The pending commands of a driver, in dispatch order. -/
def queueList (s : Driver) : List LCDCommand :=
  qlist s.cmdQueue s.queueHead s.queueTail

/-- The byte sequences of the successful transactions of a bus trace. -/
def succBytes (tr : List (List Nat × Bool)) : List (List Nat) :=
  tr.filterMap fun p => if p.2 then some p.1 else none

/-- One external interaction with the driver: an enqueue attempt via
queueCommand at a given time, or one update tick with the time and the
transport outcome for a possible transaction. -/
inductive Event where
  | enq : LCDCommand → Nat → Event
  | tick : Nat → Bool → Event

/-- Execute one event.  Result: new driver state, bus transactions of
this event, and the commands accepted into the queue by this event. -/
def step (s : Driver) (e : Event) : Driver × List (List Nat × Bool) × List LCDCommand :=
  match e with
  | Event.enq cmd now =>
      let r := queueCommand s cmd now
      (r.1, [], if r.2 then [cmd] else [])
  | Event.tick now busOK =>
      let r := update s now busOK
      (r.1, r.2.2, [])

/-- Result of running a list of events: final driver state, the whole
bus trace, and all commands accepted into the queue. -/
structure RunOut where
  drv : Driver
  tr : List (List Nat × Bool)
  acc : List LCDCommand

/-- Run a list of events from a driver state. -/
def runE (s : Driver) : List Event → RunOut
  | [] => ⟨s, [], []⟩
  | e :: rest =>
      let p := step s e
      let q := runE p.1 rest
      ⟨q.drv, p.2.1 ++ q.tr, p.2.2 ++ q.acc⟩

/-- Enqueue a list of commands one after the other; the Bool records
whether every single enqueue succeeded. -/
def enqRun (s : Driver) (cmds : List LCDCommand) (now : Nat) : Driver × Bool :=
  match cmds with
  | [] => (s, true)
  | c :: rest =>
      let r := queueCommand s c now
      let r2 := enqRun r.1 rest now
      (r2.1, r.2 && r2.2)

/-- k consecutive failures, each one invoking handleError. -/
def failN (s : Driver) (now : Nat) : Nat → Driver
  | 0 => s
  | k + 1 => handleError (failN s now k) now

/-- A driver with threshold 5 holding the single queued command
writeChar 65. -/
def d1 : Driver := (write (mkDriver 5) 65 0).1

/-- A driver parked in the ERROR state with a stale timestamp. -/
def d3 : Driver :=
  { mkDriver 1 with state := State.ERROR, lastActionTime := 0, errorCount := 2 }

/-- Scenario driver: defaults, clear() then setBacklight(10,20,30)
queued. -/
def s4a : Driver := setBacklight (clear (mkDriver 1) 0) 10 20 30 0

/-- Scenario driver after the first tick at time 100 with a succeeding
transport. -/
def s4b : Driver := (update s4a 100 true).1

/-- d1 with the dispatch state forced to PROCESSING, for the
state-independence claim about enqueues. -/
def d9b : Driver := { d1 with state := State.PROCESSING }

/-!  Arithmetic of the circular queue indices.  -/

lemma mod32_lt (x : Nat) (hx : x < 64) : x % 32 = if x < 32 then x else x - 32 := by
  split_ifs with h
  · exact Nat.mod_eq_of_lt h
  · rw [Nat.mod_eq_sub_mod (by omega)]
    exact Nat.mod_eq_of_lt (by omega)

lemma qc_le (h t : Nat) (hh : h < 32) (ht : t < 32) : qc h t ≤ 31 := by
  unfold qc; split_ifs <;> omega

lemma pos_ne (h t i : Nat) (hh : h < 32) (ht : t < 32) (hi : i < qc h t) :
    (h + i) % 32 ≠ t := by
  have hq : qc h t ≤ 31 := qc_le h t hh ht
  rw [mod32_lt _ (by omega)]
  unfold qc at hi
  split_ifs at hi <;> split_ifs <;> omega

lemma pos_eq (h t : Nat) (hh : h < 32) (ht : t < 32) : (h + qc h t) % 32 = t := by
  have hq : qc h t ≤ 31 := qc_le h t hh ht
  rw [mod32_lt _ (by omega)]
  unfold qc
  split_ifs <;> unfold qc at * <;> split_ifs at * <;> omega

lemma qc_enq (h t : Nat) (hh : h < 32) (ht : t < 32) (hne : (t + 1) % 32 ≠ h) :
    qc h ((t + 1) % 32) = qc h t + 1 := by
  rw [mod32_lt _ (by omega)] at *
  unfold qc
  split_ifs at * <;> omega

lemma qc_deq (h t : Nat) (hh : h < 32) (ht : t < 32) (hne : h ≠ t) :
    qc h t = qc ((h + 1) % 32) t + 1 := by
  rw [mod32_lt _ (by omega)]
  unfold qc
  split_ifs <;> omega

/-- Enqueueing into a non-full circular queue appends the command at
the end of the live list. -/
lemma qlist_enq (Q : Nat → LCDCommand) (h t : Nat) (cmd : LCDCommand)
    (hh : h < 32) (ht : t < 32) (hne : (t + 1) % 32 ≠ h) :
    qlist (fun i => if i = t then cmd else Q i) h ((t + 1) % 32) =
      qlist Q h t ++ [cmd] := by
  unfold qlist
  rw [qc_enq h t hh ht hne, List.range_succ, List.map_append]
  congr 1
  · apply List.map_congr_left
    intro i hi
    have hi2 : i < qc h t := List.mem_range.mp hi
    have hx : (h + i) % 32 ≠ t := pos_ne h t i hh ht hi2
    simp [hx]
  · have hx : (h + qc h t) % 32 = t := pos_eq h t hh ht
    simp [hx]

/-- Removing the head of a non-empty circular queue: the live list is
the head slot followed by the live list from the advanced head. -/
lemma qlist_deq (Q : Nat → LCDCommand) (h t : Nat)
    (hh : h < 32) (ht : t < 32) (hne : h ≠ t) :
    qlist Q h t = Q h :: qlist Q ((h + 1) % 32) t := by
  unfold qlist
  rw [qc_deq h t hh ht hne, List.range_succ_eq_map, List.map_cons, List.map_map]
  congr 1
  · simp [Nat.mod_eq_of_lt hh]
  · apply List.map_congr_left
    intro i hi
    simp only [Function.comp_apply]
    congr 1
    rw [Nat.mod_add_mod]
    omega

/-- The full-queue test of queueCommand holds exactly when the queue
holds 31 commands. -/
lemma full_iff (h t : Nat) (hh : h < 32) (ht : t < 32) :
    (t + 1) % 32 = h ↔ qc h t = 31 := by
  rw [mod32_lt _ (by omega)]
  unfold qc
  split_ifs <;> omega

/-- queueList only depends on the queue fields. -/
lemma queueList_eq_of (s s' : Driver) (h1 : s'.cmdQueue = s.cmdQueue)
    (h2 : s'.queueHead = s.queueHead) (h3 : s'.queueTail = s.queueTail) :
    queueList s' = queueList s := by
  unfold queueList
  rw [h1, h2, h3]

lemma succBytes_append (a b : List (List Nat × Bool)) :
    succBytes (a ++ b) = succBytes a ++ succBytes b := by
  unfold succBytes
  exact List.filterMap_append a b _

/-- One event preserves the FIFO correspondence: the commands live in
the queue before the event plus those accepted by the event equal some
dispatched list d (in order) followed by the commands live after the
event, and the successful bus transactions of the event are exactly
the encodings of d, provided no escalation to ERROR happens. -/
lemma step_fifo (s : Driver) (e : Event)
    (hh : s.queueHead < 32) (ht : s.queueTail < 32)
    (hs0 : s.state ≠ State.ERROR) (hs1 : (step s e).1.state ≠ State.ERROR) :
    ∃ d, queueList s ++ (step s e).2.2 = d ++ queueList (step s e).1 ∧
      succBytes (step s e).2.1 = d.filterMap sendBytes ∧
      (step s e).1.queueHead < 32 ∧ (step s e).1.queueTail < 32 := by
  cases e with
  | enq cmd now =>
    by_cases hfull : (s.queueTail + 1) % 32 = s.queueHead
    · by_cases hesc : (s.errorCount + 1) % 256 > s.errorThreshold
      · exfalso
        apply hs1
        simp [step, queueCommand, hfull, handleError, hesc]
      · refine ⟨[], ?_, ?_, ?_, ?_⟩ <;>
          simp [step, queueCommand, hfull, handleError, hesc, succBytes,
                queueList, hh, ht]
    · refine ⟨[], ?_, ?_, ?_, ?_⟩
      · simp only [step, queueCommand, if_neg hfull, queueList]
        simp only [List.nil_append]
        exact (qlist_enq s.cmdQueue s.queueHead s.queueTail cmd hh ht hfull).symm
      · simp [step, queueCommand, if_neg hfull, succBytes]
      · simpa [step, queueCommand, if_neg hfull] using hh
      · simp only [step, queueCommand, if_neg hfull]
        exact Nat.mod_lt _ (by norm_num)
  | tick now busOK =>
    cases hst : s.state with
    | ERROR => exact absurd hst hs0
    | AWAITING_RESPONSE =>
      refine ⟨[], ?_, ?_, ?_, ?_⟩ <;> simp [step, update, hst, succBytes, hh, ht]
    | PROCESSING =>
      by_cases htime : sub32 now s.lastActionTime ≥ s.cmdTime
      · refine ⟨[], ?_, ?_, ?_, ?_⟩ <;>
          simp [step, update, hst, htime, succBytes, queueList, hh, ht]
      · refine ⟨[], ?_, ?_, ?_, ?_⟩ <;>
          simp [step, update, hst, htime, succBytes, queueList, hh, ht]
    | READY =>
      by_cases hq : s.queueHead = s.queueTail
      · refine ⟨[], ?_, ?_, ?_, ?_⟩ <;> simp [step, update, hst, hq, succBytes, hh, ht]
      · cases hsb : sendBytes (s.cmdQueue s.queueHead) with
        | some bs =>
          cases busOK with
          | true =>
            refine ⟨[s.cmdQueue s.queueHead], ?_, ?_, ?_, ?_⟩
            · simp only [step, update, hst, if_pos hq,
                         processNextCommand, queueList]
              rw [if_neg (by simp [hst, hq]), hsb]
              simp only [if_pos rfl, List.append_nil]
              exact qlist_deq s.cmdQueue s.queueHead s.queueTail hh ht hq
            · simp only [step, update, hst, if_pos hq,
                         processNextCommand]
              rw [if_neg (by simp [hst, hq]), hsb]
              simp [succBytes, hsb]
            · simp only [step, update, hst, if_pos hq,
                         processNextCommand]
              rw [if_neg (by simp [hst, hq]), hsb]
              simp only [if_pos rfl]
              exact Nat.mod_lt _ (by norm_num)
            · simp only [step, update, hst, if_pos hq,
                         processNextCommand]
              rw [if_neg (by simp [hst, hq]), hsb]
              simpa using ht
          | false =>
            by_cases hesc : (s.errorCount + 1) % 256 > s.errorThreshold
            · exfalso
              apply hs1
              simp only [step, update, hst, if_pos hq,
                         processNextCommand]
              rw [if_neg (by simp [hst, hq]), hsb]
              simp [handleError, hesc]
            · refine ⟨[], ?_, ?_, ?_, ?_⟩ <;>
                · simp only [step, update, hst, if_pos hq,
                             processNextCommand]
                  rw [if_neg (by simp [hst, hq]), hsb]
                  simp [handleError, hesc, succBytes, queueList, hh, ht]
        | none =>
          by_cases hesc : (s.errorCount + 1) % 256 > s.errorThreshold
          · exfalso
            apply hs1
            simp only [step, update, hst, if_pos hq,
                       processNextCommand]
            rw [if_neg (by simp [hst, hq]), hsb]
            simp [handleError, hesc]
          · refine ⟨[], ?_, ?_, ?_, ?_⟩ <;>
              · simp only [step, update, hst, if_pos hq,
                           processNextCommand]
                rw [if_neg (by simp [hst, hq]), hsb]
                simp [handleError, hesc, succBytes, queueList, hh, ht]

/-- FIFO invariant over a whole run: as long as no state along the run
is ERROR, the initial queue content followed by all accepted commands
equals the dispatched commands (in order) followed by the still-queued
commands, and the successful bus transactions are exactly the
encodings of the dispatched commands, in that order. -/
lemma run_fifo (es : List Event) :
    ∀ s : Driver, s.queueHead < 32 → s.queueTail < 32 →
      (∀ n < es.length + 1, ((runE s (es.take n)).drv).state ≠ State.ERROR) →
      ∃ sent, queueList s ++ (runE s es).acc = sent ++ queueList (runE s es).drv ∧
        succBytes (runE s es).tr = sent.filterMap sendBytes := by
  induction es with
  | nil =>
    intro s hh ht _
    exact ⟨[], by simp [runE], by simp [runE, succBytes]⟩
  | cons e rest ih =>
    intro s hh ht hsafe
    have hs0 : s.state ≠ State.ERROR := by
      simpa [runE] using hsafe 0 (by omega)
    have hs1 : (step s e).1.state ≠ State.ERROR := by
      have h := hsafe 1 (by simp)
      simpa [runE] using h
    obtain ⟨d, hd1, hd2, hw1, hw2⟩ := step_fifo s e hh ht hs0 hs1
    have hsafe2 : ∀ n < rest.length + 1,
        ((runE (step s e).1 (rest.take n)).drv).state ≠ State.ERROR := by
      intro n hn
      have h := hsafe (n + 1) (by simpa using Nat.succ_lt_succ hn)
      simpa [List.take_succ_cons, runE] using h
    obtain ⟨sent, h1, h2⟩ := ih (step s e).1 hw1 hw2 hsafe2
    refine ⟨d ++ sent, ?_, ?_⟩
    · show queueList s ++ ((step s e).2.2 ++ (runE (step s e).1 rest).acc) =
        (d ++ sent) ++ queueList (runE (step s e).1 rest).drv
      rw [← List.append_assoc, hd1, List.append_assoc, h1, ← List.append_assoc]
    · show succBytes ((step s e).2.1 ++ (runE (step s e).1 rest).tr) =
        (d ++ sent).filterMap sendBytes
      rw [succBytes_append, hd2, h2, List.filterMap_append]

/-- What one reinitialization produces, whatever state it starts from:
error counter cleared, dispatch state PROCESSING, exactly the clear
command and the white backlight command queued, refresh flag set. -/
lemma reinit_spec (s : Driver) (now : Nat) :
    (reinit s now).errorCount = 0 ∧
    (reinit s now).state = State.PROCESSING ∧
    queueList (reinit s now) = [clearCmd, rgbCmd 255 255 255] ∧
    (reinit s now).needsFullRefresh = true := by
  refine ⟨?_, ?_, ?_, ?_⟩ <;>
    simp [reinit, clear, setBacklight, queueCommand, handleError,
          queueList, qlist, qc, List.range_succ]

/-- With the threshold at its uint8 maximum 255, handleError can never
escalate: the incremented counter, reduced modulo 256, never exceeds
255. -/
lemma failN_th255 (s : Driver) (now : Nat) (hth : s.errorThreshold = 255) :
    ∀ k, (failN s now k).state = s.state ∧ (failN s now k).errorThreshold = 255 := by
  intro k
  induction k with
  | zero => exact ⟨rfl, hth⟩
  | succ n ih =>
    obtain ⟨h1, h2⟩ := ih
    have hlt : ((failN s now n).errorCount + 1) % 256 ≤ 255 :=
      Nat.le_of_lt_succ (Nat.mod_lt _ (by norm_num))
    simp only [failN, handleError, h2]
    rw [if_neg (by omega)]
    exact ⟨h1, rfl⟩

/-- Below-threshold failures only count: as long as the number of
consecutive failures stays at or below a threshold T at most 254, the
counter tracks the number of failures exactly and nothing else of the
driver state changes except the timestamp. -/
lemma failN_below (s : Driver) (now T : Nat) (hth : s.errorThreshold = T)
    (hT : T ≤ 254) (he : s.errorCount = 0) :
    ∀ k, k ≤ T →
      (failN s now k).errorCount = k ∧ (failN s now k).state = s.state ∧
      (failN s now k).queueHead = s.queueHead ∧
      (failN s now k).queueTail = s.queueTail ∧
      (failN s now k).cmdQueue = s.cmdQueue ∧
      (failN s now k).errorThreshold = T := by
  intro k
  induction k with
  | zero => intro _; exact ⟨he, rfl, rfl, rfl, rfl, hth⟩
  | succ n ih =>
    intro hk
    obtain ⟨h1, h2, h3, h4, h5, h6⟩ := ih (by omega)
    have hmod : (n + 1) % 256 = n + 1 := Nat.mod_eq_of_lt (by omega)
    simp only [failN, handleError, h1, h6, hmod]
    rw [if_neg (by omega)]
    exact ⟨rfl, h2, h3, h4, h5, rfl⟩

/-- Enqueueing a list of commands while enough capacity remains:
every enqueue succeeds, the commands are appended in order, and
nothing else changes except the tail index. -/
lemma enqRun_ok (cmds : List LCDCommand) :
    ∀ s now, s.queueHead < 32 → s.queueTail < 32 →
      qc s.queueHead s.queueTail + cmds.length ≤ 31 →
      (enqRun s cmds now).2 = true ∧
      queueList (enqRun s cmds now).1 = queueList s ++ cmds ∧
      (enqRun s cmds now).1.queueHead = s.queueHead ∧
      (enqRun s cmds now).1.queueTail < 32 ∧
      (enqRun s cmds now).1.errorCount = s.errorCount ∧
      (enqRun s cmds now).1.state = s.state ∧
      (enqRun s cmds now).1.errorThreshold = s.errorThreshold ∧
      qc (enqRun s cmds now).1.queueHead (enqRun s cmds now).1.queueTail =
        qc s.queueHead s.queueTail + cmds.length := by
  induction cmds with
  | nil => intro s now hh ht hcap; simp [enqRun, ht]
  | cons c rest ih =>
    intro s now hh ht hcap
    have hne : (s.queueTail + 1) % 32 ≠ s.queueHead := by
      intro hfull
      have h31 := (full_iff s.queueHead s.queueTail hh ht).mp hfull
      simp only [List.length_cons] at hcap
      omega
    have hqc := qc_enq s.queueHead s.queueTail hh ht hne
    have hql := qlist_enq s.cmdQueue s.queueHead s.queueTail c hh ht hne
    simp only [enqRun, queueCommand, if_neg hne]
    obtain ⟨g1, g2, g3, g4, g5, g6, g7, g8⟩ :=
      ih { s with cmdQueue := fun i => if i = s.queueTail then c else s.cmdQueue i,
                  queueTail := (s.queueTail + 1) % 32 }
        now hh (Nat.mod_lt _ (by norm_num))
        (by simpa [hqc] using (by simp only [List.length_cons] at hcap; omega :
              qc s.queueHead s.queueTail + 1 + rest.length ≤ 31))
    refine ⟨by simp [g1], ?_, g3, g4, g5, g6, g7, ?_⟩
    · rw [g2]
      show queueList _ ++ rest = queueList s ++ c :: rest
      rw [show queueList { s with
            cmdQueue := fun i => if i = s.queueTail then c else s.cmdQueue i,
            queueTail := (s.queueTail + 1) % 32 } = queueList s ++ [c] from hql]
      simp
    · rw [g8]
      show qc s.queueHead ((s.queueTail + 1) % 32) + rest.length = _
      rw [hqc]
      simp [List.length_cons]
      omega

/-- Claim C1 counterexample: a concrete Ready driver with one queued
command, a failing transaction and an absorbed (below threshold)
error.  The claim asserts the failed command is removed and not
retried; in fact it is still queued after the tick and the very next
tick retries and sends it. -/
theorem C1_cex :
    d1.state = State.READY ∧ d1.queueHead ≠ d1.queueTail ∧
    (d1.errorCount + 1) % 256 ≤ d1.errorThreshold ∧
    (update d1 0 false).2.2 = [([65], false)] ∧
    queueList (update d1 0 false).1 = [writeChar 65] ∧
    (update (update d1 0 false).1 7 true).2.2 = [([65], true)] := by
  decide

/-- Claim C1 (amended): in Ready with a non-empty queue, when the bus
transaction for the head command fails and the incremented error
counter stays at or below the threshold, the tick leaves the queue
(slots, head and tail) unchanged and the state Ready, so the failed
command stays at the head and the next successful tick retries and
sends the very same command.  It is not lost. -/
theorem C1_thm (s : Driver) (now now2 : Nat)
    (hs : s.state = State.READY) (hq : s.queueHead ≠ s.queueTail)
    (henc : (sendBytes (s.cmdQueue s.queueHead)).isSome = true)
    (habs : (s.errorCount + 1) % 256 ≤ s.errorThreshold) :
    (update s now false).1.queueHead = s.queueHead ∧
    (update s now false).1.queueTail = s.queueTail ∧
    (update s now false).1.cmdQueue = s.cmdQueue ∧
    (update s now false).1.state = State.READY ∧
    queueList (update s now false).1 = queueList s ∧
    (update (update s now false).1 now2 true).2.2 =
      [((sendBytes (s.cmdQueue s.queueHead)).getD [], true)] := by
  obtain ⟨bs, hbs⟩ := Option.isSome_iff_exists.mp henc
  have hupd : (update s now false).1 = handleError s now := by
    simp only [update, hs, if_pos hq, processNextCommand]
    rw [if_neg (by simp [hs, hq]), hbs]
    rfl
  have hhe : handleError s now =
      { s with errorCount := (s.errorCount + 1) % 256, lastActionTime := now } := by
    unfold handleError
    rw [if_neg (by omega)]
  rw [hupd, hhe]
  refine ⟨rfl, rfl, rfl, hs, queueList_eq_of _ _ rfl rfl rfl, ?_⟩
  simp only [update, hs, if_pos hq, processNextCommand]
  rw [if_neg (by simp [hs, hq]), hbs]
  simp [hbs]

/-- Claim C1 witness: the amended theorem applied at a concrete
driver. -/
theorem C1_witness :
    (update d1 0 false).1.queueHead = d1.queueHead ∧
    (update d1 0 false).1.queueTail = d1.queueTail ∧
    (update d1 0 false).1.cmdQueue = d1.cmdQueue ∧
    (update d1 0 false).1.state = State.READY ∧
    queueList (update d1 0 false).1 = queueList d1 ∧
    (update (update d1 0 false).1 7 true).2.2 =
      [((sendBytes (d1.cmdQueue d1.queueHead)).getD [], true)] :=
  C1_thm d1 0 7 (by decide) (by decide) (by decide) (by decide)

/-- Claim C2: strict FIFO dispatch.  Over any run of enqueues and
ticks from a fresh driver in which no state is ever ERROR, the
commands accepted by queueCommand split into a dispatched part
followed by the still pending part, in enqueue order, and the
successful bus transactions carry exactly the encodings of the
dispatched part in that same order: no reordering ever occurs. -/
theorem C2_thm (T : Nat) (es : List Event)
    (hsafe : ∀ n < es.length + 1,
      ((runE (mkDriver T) (es.take n)).drv).state ≠ State.ERROR) :
    ∃ sent, (runE (mkDriver T) es).acc =
        sent ++ queueList (runE (mkDriver T) es).drv ∧
      succBytes (runE (mkDriver T) es).tr = sent.filterMap sendBytes := by
  obtain ⟨sent, h1, h2⟩ :=
    run_fifo es (mkDriver T) (by norm_num [mkDriver]) (by norm_num [mkDriver]) hsafe
  have h0 : queueList (mkDriver T) = [] := by
    simp [queueList, qlist, qc, mkDriver]
  rw [h0] at h1
  exact ⟨sent, by simpa using h1, h2⟩

/-- Claim C2 witness: a concrete run with one enqueue and one
dispatching tick. -/
theorem C2_witness :
    ∃ sent,
      (runE (mkDriver 1) [Event.enq clearCmd 0, Event.tick 10 true]).acc =
        sent ++ queueList (runE (mkDriver 1) [Event.enq clearCmd 0, Event.tick 10 true]).drv ∧
      succBytes (runE (mkDriver 1) [Event.enq clearCmd 0, Event.tick 10 true]).tr =
        sent.filterMap sendBytes :=
  C2_thm 1 [Event.enq clearCmd 0, Event.tick 10 true] (by decide)

/-- Claim C3 counterexample: a concrete driver in ERROR whose recovery
time has elapsed.  One tick performs the recovery, but the state after
the tick is PROCESSING, not READY as claimed, because reinitialization
re-enters PROCESSING after the ERROR branch briefly sets READY. -/
theorem C3_cex :
    d3.state = State.ERROR ∧
    sub32 100 d3.lastActionTime ≥ d3.errorResetTime ∧
    (update d3 100 true).1.errorCount = 0 ∧
    (update d3 100 true).1.state = State.PROCESSING ∧
    (update d3 100 true).1.state ≠ State.READY := by
  decide

/-- Claim C3 (amended): in ERROR with the recovery settle time
elapsed, one tick clears the error counter to 0 and triggers the full
reinitialization (queueing the clear and white backlight commands and
setting the refresh flag), and it leaves the state machine in
PROCESSING, not READY; the tick itself returns false. -/
theorem C3_thm (s : Driver) (now : Nat) (ok : Bool)
    (hs : s.state = State.ERROR)
    (ht : sub32 now s.lastActionTime ≥ s.errorResetTime) :
    (update s now ok).1 = reinit { s with state := State.READY, errorCount := 0 } now ∧
    (update s now ok).1.errorCount = 0 ∧
    (update s now ok).1.state = State.PROCESSING ∧
    queueList (update s now ok).1 = [clearCmd, rgbCmd 255 255 255] ∧
    (update s now ok).1.needsFullRefresh = true ∧
    (update s now ok).2.1 = false := by
  have hupd : update s now ok =
      (reinit { s with state := State.READY, errorCount := 0 } now, false, []) := by
    simp only [update, hs, if_pos ht]
  obtain ⟨g1, g2, g3, g4⟩ := reinit_spec { s with state := State.READY, errorCount := 0 } now
  rw [hupd]
  exact ⟨rfl, g1, g2, g3, g4, rfl⟩

/-- Claim C3 witness: the amended theorem applied at a concrete ERROR
driver. -/
theorem C3_witness :
    (update d3 100 true).1 = reinit { d3 with state := State.READY, errorCount := 0 } 100 ∧
    (update d3 100 true).1.errorCount = 0 ∧
    (update d3 100 true).1.state = State.PROCESSING ∧
    queueList (update d3 100 true).1 = [clearCmd, rgbCmd 255 255 255] ∧
    (update d3 100 true).1.needsFullRefresh = true ∧
    (update d3 100 true).2.1 = false :=
  C3_thm d3 100 true (by decide) (by decide)

/-- Claim C4 counterexample: in the concrete scenario (clear then
setBacklight(10,20,30) queued, first tick sent the clear bytes at time
100), the settle time has elapsed at time 106, yet the tick at 106
performs no bus transaction at all and leaves the backlight command
queued: the dispatch of the backlight bytes needs one further tick. -/
theorem C4_cex :
    sub32 106 s4b.lastActionTime ≥ s4b.cmdTime ∧
    (update s4b 106 true).2.2 = [] ∧
    queueList (update s4b 106 true).1 = [rgbCmd 10 20 30] := by
  decide

/-- Claim C4 (amended): with clear() then setBacklight(10,20,30)
queued and an always succeeding transport, the first tick sends the
clear bytes 254, 1 and enters PROCESSING; every tick before the
per-command settle time has elapsed reports not ready; the first tick
after the settle time has elapsed merely returns to READY and sends
nothing; the tick after that sends the backlight bytes 124, 43, 10,
20, 30 and leaves the queue empty. -/
theorem C4_thm :
    (update s4a 100 true).2.2 = [([254, 1], true)] ∧
    (update s4a 100 true).2.1 = true ∧
    s4b.state = State.PROCESSING ∧
    (∀ t : Nat, ∀ ok : Bool, 100 ≤ t → t < 105 →
      (update s4b t ok).2.1 = false ∧ (update s4b t ok).2.2 = []) ∧
    (update s4b 106 true).2.1 = true ∧
    (update s4b 106 true).2.2 = [] ∧
    (update s4b 106 true).1.state = State.READY ∧
    (update (update s4b 106 true).1 106 true).2.2 = [([124, 43, 10, 20, 30], true)] ∧
    queueList (update (update s4b 106 true).1 106 true).1 = [] := by
  refine ⟨by decide, by decide, by decide, ?_, by decide, by decide, by decide,
          by decide, by decide⟩
  intro t ok h1 h2
  have hst : s4b.state = State.PROCESSING := by decide
  have hla : s4b.lastActionTime = 100 := by decide
  have hcm : s4b.cmdTime = 5 := by decide
  have hlt : ¬ (sub32 t s4b.lastActionTime ≥ s4b.cmdTime) := by
    rw [hla, hcm]
    simp only [sub32]
    omega
  constructor <;> simp [update, hst, hlt]

/-- Claim C4 witness: the universally quantified not-ready window of
the amended theorem applied at time 103. -/
theorem C4_witness :
    (update s4b 103 true).2.1 = false ∧ (update s4b 103 true).2.2 = [] :=
  C4_thm.2.2.2.1 103 true (by decide) (by decide)

/-- Claim C5 counterexample: a concrete tick that enters in READY with
a queued command and a failing transport returns false although the
dispatch state is READY before and after the call, so the return value
is not (currently Ready), and it does signal the failure of this
specific transmission. -/
theorem C5_cex :
    d1.state = State.READY ∧
    (update d1 0 false).1.state = State.READY ∧
    (update d1 0 false).2.1 = false := by
  decide

/-- Claim C5 (amended): the value returned by update is true exactly
when the tick ends in READY after a PROCESSING timeout or an idle
READY queue, or when the tick entered in READY with a non-empty queue
and the head transmission succeeded.  On dispatching ticks the return
value is therefore precisely the success indicator of that command
transmission (and the machine is then in PROCESSING, not READY). -/
theorem C5_thm (s : Driver) (now : Nat) (ok : Bool) :
    (update s now ok).2.1 = true ↔
      ((s.state = State.PROCESSING ∧ sub32 now s.lastActionTime ≥ s.cmdTime) ∨
       (s.state = State.READY ∧ s.queueHead = s.queueTail) ∨
       (s.state = State.READY ∧ s.queueHead ≠ s.queueTail ∧
         (sendBytes (s.cmdQueue s.queueHead)).isSome = true ∧ ok = true)) := by
  cases hst : s.state with
  | READY =>
    by_cases hq : s.queueHead = s.queueTail
    · simp [update, hst, hq]
    · simp only [update, hst, if_pos hq, processNextCommand]
      rw [if_neg (by simp [hst, hq])]
      cases hsb : sendBytes (s.cmdQueue s.queueHead) with
      | some bs => cases ok <;> simp [hsb, hq]
      | none => cases ok <;> simp [handleError, hsb, hq]
  | PROCESSING =>
    by_cases htime : sub32 now s.lastActionTime ≥ s.cmdTime <;>
      simp [update, hst, htime]
  | AWAITING_RESPONSE => simp [update, hst]
  | ERROR =>
    by_cases htime : sub32 now s.lastActionTime ≥ s.errorResetTime <;>
      simp [update, hst, htime]

/-- Claim C5 witness: the characterization applied at a concrete
input. -/
theorem C5_witness :
    (update d1 0 true).2.1 = true ↔
      ((d1.state = State.PROCESSING ∧ sub32 0 d1.lastActionTime ≥ d1.cmdTime) ∨
       (d1.state = State.READY ∧ d1.queueHead = d1.queueTail) ∨
       (d1.state = State.READY ∧ d1.queueHead ≠ d1.queueTail ∧
         (sendBytes (d1.cmdQueue d1.queueHead)).isSome = true ∧ true = true)) :=
  C5_thm d1 0 true

/-- Claim C6 counterexample: with the threshold at its uint8 maximum
255, 256 consecutive failures (the (T+1)th) leave the machine READY
because the 8-bit counter wraps to 0; the claimed transition to ERROR
never happens for T = 255. -/
theorem C6_cex :
    (mkDriver 255).errorThreshold = 255 ∧
    (mkDriver 255).errorCount = 0 ∧
    (mkDriver 255).state = State.READY ∧
    (failN (mkDriver 255) 0 256).state = State.READY ∧
    (failN (mkDriver 255) 0 256).state ≠ State.ERROR := by
  have h : (failN (mkDriver 255) 0 256).state = State.READY :=
    (failN_th255 (mkDriver 255) 0 rfl 256).1
  exact ⟨rfl, rfl, rfl, h, by rw [h]; decide⟩

/-- Claim C6 (amended): for every threshold T up to 254 (the claim
fails only at the uint8 maximum 255, where the counter wraps), exactly
T consecutive failures starting from counter 0 in READY leave the
machine READY with the queue untouched, and the (T+1)th consecutive
failure enters ERROR and empties the queue. -/
theorem C6_thm (s : Driver) (now T : Nat) (hth : s.errorThreshold = T)
    (hT : T ≤ 254) (he : s.errorCount = 0) (hs : s.state = State.READY) :
    (failN s now T).state = State.READY ∧
    (failN s now T).queueHead = s.queueHead ∧
    (failN s now T).queueTail = s.queueTail ∧
    (failN s now T).cmdQueue = s.cmdQueue ∧
    (failN s now (T + 1)).state = State.ERROR ∧
    (failN s now (T + 1)).queueHead = 0 ∧
    (failN s now (T + 1)).queueTail = 0 := by
  obtain ⟨h1, h2, h3, h4, h5, h6⟩ := failN_below s now T hth hT he T (le_refl T)
  have hmod : (T + 1) % 256 = T + 1 := Nat.mod_eq_of_lt (by omega)
  have hesc : (failN s now (T + 1)).state = State.ERROR ∧
      (failN s now (T + 1)).queueHead = 0 ∧ (failN s now (T + 1)).queueTail = 0 := by
    simp only [failN, handleError, h1, h6, hmod]
    rw [if_pos (by omega)]
    exact ⟨rfl, rfl, rfl⟩
  exact ⟨h2.trans hs, h3, h4, h5, hesc.1, hesc.2.1, hesc.2.2⟩

/-- Claim C6 witness: the amended theorem applied at threshold 2. -/
theorem C6_witness :
    (failN (mkDriver 2) 0 2).state = State.READY ∧
    (failN (mkDriver 2) 0 3).state = State.ERROR ∧
    (failN (mkDriver 2) 0 3).queueHead = 0 ∧
    (failN (mkDriver 2) 0 3).queueTail = 0 := by
  have h := C6_thm (mkDriver 2) 0 2 rfl (by norm_num) rfl rfl
  exact ⟨h.1, h.2.2.2.2.1, h.2.2.2.2.2.1, h.2.2.2.2.2.2⟩

/-- Claim C7: from a fresh driver, any 31 consecutive enqueues
succeed; the 32nd call fails, writes nothing into the queue storage,
and raises the error counter from 0 to 1.  When the threshold is at
least 1 the failing call additionally leaves the queued commands
exactly as they were. -/
theorem C7_thm (T : Nat) (cmds : List LCDCommand) (c32 : LCDCommand)
    (hlen : cmds.length = 31) :
    (enqRun (mkDriver T) cmds 0).2 = true ∧
    queueList (enqRun (mkDriver T) cmds 0).1 = cmds ∧
    (queueCommand (enqRun (mkDriver T) cmds 0).1 c32 0).2 = false ∧
    (queueCommand (enqRun (mkDriver T) cmds 0).1 c32 0).1.cmdQueue =
      (enqRun (mkDriver T) cmds 0).1.cmdQueue ∧
    (enqRun (mkDriver T) cmds 0).1.errorCount = 0 ∧
    (queueCommand (enqRun (mkDriver T) cmds 0).1 c32 0).1.errorCount = 1 ∧
    (1 ≤ T → queueList (queueCommand (enqRun (mkDriver T) cmds 0).1 c32 0).1 = cmds) := by
  obtain ⟨g1, g2, g3, g4, g5, g6, g7, g8⟩ :=
    enqRun_ok cmds (mkDriver T) 0 (by norm_num [mkDriver]) (by norm_num [mkDriver])
      (by simp [mkDriver, qc, hlen])
  have hq0 : queueList (mkDriver T) = [] := by simp [queueList, qlist, qc, mkDriver]
  have hqc31 : qc (enqRun (mkDriver T) cmds 0).1.queueHead
      (enqRun (mkDriver T) cmds 0).1.queueTail = 31 := by
    rw [g8]
    simp [mkDriver, qc, hlen]
  have hh31 : (enqRun (mkDriver T) cmds 0).1.queueHead < 32 := by
    rw [g3]; norm_num [mkDriver]
  have hfull : ((enqRun (mkDriver T) cmds 0).1.queueTail + 1) % 32 =
      (enqRun (mkDriver T) cmds 0).1.queueHead :=
    (full_iff _ _ hh31 g4).mpr hqc31
  have hec0 : (enqRun (mkDriver T) cmds 0).1.errorCount = 0 := by
    rw [g5]; rfl
  refine ⟨g1, by rw [g2, hq0]; simp, ?_, ?_, hec0, ?_, ?_⟩
  · simp only [queueCommand, if_pos hfull]
  · simp only [queueCommand, if_pos hfull, handleError, hec0]
    split_ifs <;> rfl
  · simp only [queueCommand, if_pos hfull, handleError, hec0]
    split_ifs <;> rfl
  · intro hT1
    have hth : (enqRun (mkDriver T) cmds 0).1.errorThreshold = T := by
      rw [g7]; rfl
    simp only [queueCommand, if_pos hfull, handleError, hec0, hth]
    rw [if_neg (by omega)]
    exact Eq.trans (queueList_eq_of (enqRun (mkDriver T) cmds 0).1 _ rfl rfl rfl)
      (by rw [g2, hq0]; simp)

/-- Claim C7 witness: 31 character writes into a fresh driver with the
default threshold 1, then one more enqueue. -/
theorem C7_witness :
    (enqRun (mkDriver 1) (List.replicate 31 (writeChar 65)) 0).2 = true ∧
    queueList (enqRun (mkDriver 1) (List.replicate 31 (writeChar 65)) 0).1 =
      List.replicate 31 (writeChar 65) ∧
    (queueCommand (enqRun (mkDriver 1) (List.replicate 31 (writeChar 65)) 0).1
      (writeChar 66) 0).2 = false ∧
    (queueCommand (enqRun (mkDriver 1) (List.replicate 31 (writeChar 65)) 0).1
      (writeChar 66) 0).1.errorCount = 1 ∧
    queueList (queueCommand (enqRun (mkDriver 1) (List.replicate 31 (writeChar 65)) 0).1
      (writeChar 66) 0).1 = List.replicate 31 (writeChar 65) := by
  have h := C7_thm 1 (List.replicate 31 (writeChar 65)) (writeChar 66) (by simp)
  exact ⟨h.1, h.2.1, h.2.2.1, h.2.2.2.2.2.1, h.2.2.2.2.2.2 (le_refl 1)⟩

/-- Claim C8: the CharacterWrite encoding escapes exactly the two
reserved prefix bytes 254 and 0x7C by writing the byte twice, and
writes every other byte exactly once. -/
theorem C8_thm (b : Nat) :
    ((b = 254 ∨ b = 124) → sendBytes (writeChar b) = some [b, b]) ∧
    (b ≠ 254 → b ≠ 124 → sendBytes (writeChar b) = some [b]) := by
  constructor
  · intro h
    simp only [sendBytes, writeChar]
    rw [if_pos (by simpa [SPECIAL_COMMAND, SETTING_COMMAND] using h)]
  · intro h1 h2
    simp only [sendBytes, writeChar]
    rw [if_neg (by simp [SPECIAL_COMMAND, SETTING_COMMAND, h1, h2])]

/-- Claim C8 witness: both escaped bytes and one ordinary byte. -/
theorem C8_witness :
    sendBytes (writeChar 254) = some [254, 254] ∧
    sendBytes (writeChar 124) = some [124, 124] ∧
    sendBytes (writeChar 65) = some [65] :=
  ⟨(C8_thm 254).1 (Or.inl rfl), (C8_thm 124).1 (Or.inr rfl),
   (C8_thm 65).2 (by decide) (by decide)⟩

/-- Claim C9: the outcome of an enqueue does not depend on the
dispatch state: two drivers equal in every field except the dispatch
state produce the same queueCommand result and the same resulting
queue (storage, head, tail and live contents). -/
theorem C9_thm (s1 s2 : Driver) (cmd : LCDCommand) (now : Nat)
    (hQ : s2.cmdQueue = s1.cmdQueue) (hh : s2.queueHead = s1.queueHead)
    (ht : s2.queueTail = s1.queueTail) (hla : s2.lastActionTime = s1.lastActionTime)
    (hec : s2.errorCount = s1.errorCount) (hnf : s2.needsFullRefresh = s1.needsFullRefresh)
    (hct : s2.cmdTime = s1.cmdTime) (her : s2.errorResetTime = s1.errorResetTime)
    (hth : s2.errorThreshold = s1.errorThreshold) :
    (queueCommand s2 cmd now).2 = (queueCommand s1 cmd now).2 ∧
    (queueCommand s2 cmd now).1.cmdQueue = (queueCommand s1 cmd now).1.cmdQueue ∧
    (queueCommand s2 cmd now).1.queueHead = (queueCommand s1 cmd now).1.queueHead ∧
    (queueCommand s2 cmd now).1.queueTail = (queueCommand s1 cmd now).1.queueTail ∧
    queueList (queueCommand s2 cmd now).1 = queueList (queueCommand s1 cmd now).1 := by
  simp only [queueCommand, handleError, hQ, hh, ht, hla, hec, hnf, hct, her, hth]
  split_ifs <;> simp [queueList]

/-- Claim C9 witness: the same enqueue into a READY driver and into
the identical driver forced to PROCESSING. -/
theorem C9_witness :
    d9b.state ≠ d1.state ∧
    (queueCommand d9b (writeChar 66) 3).2 = (queueCommand d1 (writeChar 66) 3).2 ∧
    queueList (queueCommand d9b (writeChar 66) 3).1 =
      queueList (queueCommand d1 (writeChar 66) 3).1 := by
  have h := C9_thm d1 d9b (writeChar 66) 3 rfl rfl rfl rfl rfl rfl rfl rfl rfl
  exact ⟨by decide, h.1, h.2.2.2.2⟩

/-- Claim C10: the error counter is only ever written by the increment
in handleError (reached through failed enqueues and failed
transmissions), and by the reset to 0 in the constructor, in
reinitialize and in the elapsed ERROR-recovery branch of update; in
particular a successful command transmission leaves it unchanged, so
failures separated by successful sends keep accumulating. -/
theorem C10_thm (s : Driver) (now : Nat) (ok : Bool) (cmd : LCDCommand) (T : Nat) :
    ((mkDriver T).errorCount = 0) ∧
    ((handleError s now).errorCount = (s.errorCount + 1) % 256) ∧
    ((reinit s now).errorCount = 0) ∧
    (s.state = State.READY → s.queueHead ≠ s.queueTail →
      (sendBytes (s.cmdQueue s.queueHead)).isSome = true →
      (update s now true).1.errorCount = s.errorCount) ∧
    (s.state = State.READY → s.queueHead ≠ s.queueTail →
      (sendBytes (s.cmdQueue s.queueHead)).isSome = true →
      (update s now false).1.errorCount = (s.errorCount + 1) % 256) ∧
    (s.state = State.PROCESSING → (update s now ok).1.errorCount = s.errorCount) ∧
    (s.state = State.AWAITING_RESPONSE → (update s now ok).1.errorCount = s.errorCount) ∧
    (s.state = State.READY → s.queueHead = s.queueTail →
      (update s now ok).1.errorCount = s.errorCount) ∧
    (s.state = State.ERROR →
      (update s now ok).1.errorCount =
        if sub32 now s.lastActionTime ≥ s.errorResetTime then 0 else s.errorCount) ∧
    ((queueCommand s cmd now).2 = true →
      (queueCommand s cmd now).1.errorCount = s.errorCount) ∧
    ((queueCommand s cmd now).2 = false →
      (queueCommand s cmd now).1.errorCount = (s.errorCount + 1) % 256) := by
  refine ⟨rfl, ?_, (reinit_spec s now).1, ?_, ?_, ?_, ?_, ?_, ?_, ?_, ?_⟩
  · unfold handleError
    split_ifs <;> rfl
  · intro hs hq henc
    obtain ⟨bs, hbs⟩ := Option.isSome_iff_exists.mp henc
    simp only [update, hs, if_pos hq, processNextCommand]
    rw [if_neg (by simp [hs, hq]), hbs]
    rfl
  · intro hs hq henc
    obtain ⟨bs, hbs⟩ := Option.isSome_iff_exists.mp henc
    simp only [update, hs, if_pos hq, processNextCommand]
    rw [if_neg (by simp [hs, hq]), hbs]
    simp only [Bool.false_eq_true, if_false]
    unfold handleError
    split_ifs <;> rfl
  · intro hs
    simp only [update, hs]
    split_ifs <;> rfl
  · intro hs
    simp only [update, hs]
  · intro hs hq
    simp only [update, hs, hq]
    simp
  · intro hs
    simp only [update, hs]
    split_ifs with h
    · exact (reinit_spec _ now).1
    · rfl
  · intro hok
    by_cases hfull : (s.queueTail + 1) % 32 = s.queueHead
    · simp [queueCommand, hfull] at hok
    · simp [queueCommand, hfull]
  · intro hfail
    by_cases hfull : (s.queueTail + 1) % 32 = s.queueHead
    · simp only [queueCommand, if_pos hfull]
      unfold handleError
      split_ifs <;> rfl
    · simp [queueCommand, hfull] at hfail

/-- Claim C10 witness: the counter across a successful send, a failed
send and an elapsed recovery, at concrete inputs. -/
theorem C10_witness :
    (update d1 5 true).1.errorCount = d1.errorCount ∧
    (update d1 5 false).1.errorCount = (d1.errorCount + 1) % 256 ∧
    (update d3 100 true).1.errorCount =
      (if sub32 100 d3.lastActionTime ≥ d3.errorResetTime then 0 else d3.errorCount) ∧
    (queueCommand d1 (writeChar 66) 3).1.errorCount = d1.errorCount := by
  have ha := C10_thm d1 5 true (writeChar 66) 1
  have hb := C10_thm d1 5 false (writeChar 66) 1
  have hc := C10_thm d3 100 true (writeChar 66) 1
  have hd := C10_thm d1 3 true (writeChar 66) 1
  exact ⟨ha.2.2.2.1 (by decide) (by decide) (by decide),
         hb.2.2.2.2.1 (by decide) (by decide) (by decide),
         hc.2.2.2.2.2.2.2.2.1 (by decide),
         hd.2.2.2.2.2.2.2.2.2.1 (by decide)⟩

end SerLCD0
